import Mathlib

/-!
# Verification of the local_database file-storage service

Shallow embedding of the core functions of the repository
(alpha/beta/stable fileserver components) and proofs of the
specification claims about them.

Conventions:
* Python strings are modelled as Lean `String` / `List Char`;
  character classes (`\w`, `\d`, case mapping) follow Python's
  behaviour on the ASCII range, which is the range the theorems
  quantify over where the distinction matters.
* Python floats are modelled as `ℚ` (the arithmetic appearing in the
  scored-candidates code is `+ 0.5` / `+ 0.3` accumulation, whose
  exactness questions do not affect the claims settled here).
* `dict` values keyed by ids are modelled as association lists in
  insertion order (Python dicts preserve insertion order).
* Filesystem trees are modelled by the inductive `FsTree`; network
  effects (the metadata service, libmagic, werkzeug helpers) enter as
  explicit oracle parameters.
-/

namespace LocalDb

/-! ## Basic character / string primitives (Python semantics) -/

/-- Python `str.lower` restricted to ASCII (`'A'..'Z'` map down). -/
def pyLowerChar (c : Char) : Char :=
  if 65 ≤ c.toNat ∧ c.toNat ≤ 90 then Char.ofNat (c.toNat + 32) else c

/-- ASCII decimal digit, Python `\d` on the ASCII range. -/
def pyIsDigit (c : Char) : Bool :=
  48 ≤ c.toNat && c.toNat ≤ 57

/-- Python `\w` on the ASCII range: letters, digits, underscore. -/
def pyIsWordChar (c : Char) : Bool :=
  (65 ≤ c.toNat && c.toNat ≤ 90) || (97 ≤ c.toNat && c.toNat ≤ 122) ||
    pyIsDigit c || c = '_'

/-- Python `str.isspace` members on the ASCII range. -/
def pyIsSpace (c : Char) : Bool :=
  c = ' ' || c = '\t' || c = '\n' || c = '\x0b' || c = '\x0c' || c = '\r'

/-- `l₂` begins with `l₁`. -/
def listStartsWith : List Char → List Char → Bool
  | [], _ => true
  | _ :: _, [] => false
  | a :: as, b :: bs => a = b && listStartsWith as bs

/-- Python `needle in hay` substring test, on char lists. -/
def listContainsSub (needle : List Char) : List Char → Bool
  | [] => listStartsWith needle []
  | b :: bs => listStartsWith needle (b :: bs) || listContainsSub needle bs

/-- Python `needle in hay` substring test on strings. -/
def strContainsSub (hay needle : String) : Bool :=
  listContainsSub needle.data hay.data

/-- Python `s.startswith(p)` on strings. -/
def strStartsWith (s p : String) : Bool :=
  listStartsWith p.data s.data

/-- Python `s.lower()` (ASCII range). -/
def pyLower (s : String) : String :=
  String.mk (s.data.map pyLowerChar)

/-- Python `s.split(sep)` for a single-character separator: splits at
every occurrence, keeping empty fields (`"a//b" → ["a","","b"]`,
`"" → [""]`). -/
def pySplitChar (sep : Char) : List Char → List (List Char)
  | [] => [[]]
  | c :: rest =>
    match pySplitChar sep rest with
    | [] => if c = sep then [[], []] else [[c]]
    | g :: gs => if c = sep then [] :: g :: gs else (c :: g) :: gs

/-- Python `s.split()` with no argument: split on runs of whitespace,
discarding empty fields. -/
def pySplitWs (s : List Char) : List (List Char) :=
  (pySplitChar ' ' (s.map (fun c => if pyIsSpace c then ' ' else c))).filter
    (fun g => !g.isEmpty)

/-- Digits-to-integer, Python `int(...)` on a nonempty ASCII digit string. -/
def digitsToNat (ds : List Char) : Nat :=
  ds.foldl (fun acc c => 10 * acc + (c.toNat - 48)) 0

/-! ## `sanitize_filename` — stable/fileserver/src/auto_rename.py

```python
def sanitize_filename(name):
    sanitized = re.sub(r'[\\/*?:"<>|]', '', name)
    sanitized = sanitized.replace(' ', '_')
    sanitized = re.sub(r'[^\w\-\.]', '', sanitized)
    if not sanitized:
        sanitized = "unnamed_file"
    return sanitized
```
-/

/-- Members of the first removed character class `[\\/*?:"<>|]`. -/
def invalidFilenameChar (c : Char) : Bool :=
  c = '\\' || c = '/' || c = '*' || c = '?' || c = ':' || c = '"' ||
    c = '<' || c = '>' || c = '|'

def sanitize_filename (name : String) : String :=
  let s1 := name.data.filter (fun c => !invalidFilenameChar c)
  let s2 := s1.map (fun c => if c = ' ' then '_' else c)
  let s3 := s2.filter (fun c => pyIsWordChar c || c = '-' || c = '.')
  if s3.isEmpty then "unnamed_file" else String.mk s3

/-- The allowed output alphabet `[A-Za-z0-9_.-]` named by the spec. -/
def allowedFilenameChar (c : Char) : Bool :=
  (65 ≤ c.toNat && c.toNat ≤ 90) || (97 ≤ c.toNat && c.toNat ≤ 122) ||
    (48 ≤ c.toNat && c.toNat ≤ 57) || c = '_' || c = '.' || c = '-'

/-- Modelled from the spec's words for claim C6 (refinement reading):
"strips characters outside `[A-Za-z0-9_.-]`, collapses whitespace to
underscore, falls back to `\"unnamed_file\"` if the result is empty".
Used only to compare against `sanitize_filename`. -/
def sanitizeFilenameClaim (name : String) : String :=
  let s1 := name.data.map (fun c => if pyIsSpace c then '_' else c)
  let s2 := s1.filter allowedFilenameChar
  if s2.isEmpty then "unnamed_file" else String.mk s2

/-! ## difflib.SequenceMatcher.ratio (stdlib, used by the matcher)

`calculate_filename_similarity` calls
`SequenceMatcher(None, filename_base, item_name_lower).ratio()`.
The inputs are short strings (< 200 chars), so difflib's autojunk is
inactive and the junk set is empty; the junk-extension loops of
`find_longest_match` are consequently no-ops and the two non-junk
extension loops are kept.  `ratio = 2*M/(len a + len b)` where `M` is
the total size of the matching blocks. -/

/-- A candidate longest-match block `(i, j, size)`. -/
structure MatchBlock where
  i : Nat
  j : Nat
  k : Nat
  deriving Repr, DecidableEq

/-- Positions of `c` in `b`, in increasing order (difflib's `b2j`). -/
def positionsOf (b : List Char) (c : Char) : List Nat :=
  (List.range b.length).filter (fun j => b.get? j == some c)

/-- Lookup in the `j2len` association map, default `0`. -/
def j2lenGet (m : List (Nat × Nat)) (k : Nat) : Nat :=
  match m.find? (fun p => p.1 == k) with
  | some p => p.2
  | none => 0

/-- One row of the `find_longest_match` dynamic program: process the
positions `js` of `a[i]` inside `b` (in increasing order).  `j = 0`
corresponds to Python's `j2len.get(j-1, 0)` with `j-1 = -1`, which is
never a key, hence the explicit guard. -/
def flmRow (j2len : List (Nat × Nat)) (best : MatchBlock) (i : Nat)
    (js : List Nat) (blo bhi : Nat) : List (Nat × Nat) × MatchBlock :=
  js.foldl
    (fun acc j =>
      if j < blo then acc
      else if bhi ≤ j then acc
      else
        let k := (if j = 0 then 0 else j2lenGet j2len (j - 1)) + 1
        let acc1 := (j, k) :: acc.1
        -- Python's `i-k+1` with `k ≤ i+1`; written `i+1-k` to be ℕ-safe
        let best1 := if k > acc.2.k then MatchBlock.mk (i + 1 - k) (j + 1 - k) k else acc.2
        (acc1, best1))
    ([], best)

/-- The main loop of `find_longest_match` (no junk). -/
def flmLoop (a b : List Char) (alo ahi blo bhi : Nat) : MatchBlock :=
  ((List.range' alo (ahi - alo)).foldl
    (fun acc i => flmRow acc.1 acc.2 i (positionsOf b (a.getD i ' ')) blo bhi)
    ([], MatchBlock.mk alo blo 0)).2

/-- Left extension loop (`while besti > alo and bestj > blo and
a[besti-1] == b[bestj-1]`); fuel-bounded, fuel `best.i` suffices. -/
def flmExtendLeft (a b : List Char) (alo blo : Nat) : Nat → MatchBlock → MatchBlock
  | 0, best => best
  | fuel + 1, best =>
    if alo < best.i && blo < best.j &&
        (a.getD (best.i - 1) ' ' == b.getD (best.j - 1) ' ') then
      flmExtendLeft a b alo blo fuel (MatchBlock.mk (best.i - 1) (best.j - 1) (best.k + 1))
    else best

/-- Right extension loop; fuel-bounded, fuel `ahi` suffices. -/
def flmExtendRight (a b : List Char) (ahi bhi : Nat) : Nat → MatchBlock → MatchBlock
  | 0, best => best
  | fuel + 1, best =>
    if best.i + best.k < ahi && best.j + best.k < bhi &&
        (a.getD (best.i + best.k) ' ' == b.getD (best.j + best.k) ' ') then
      flmExtendRight a b ahi bhi fuel (MatchBlock.mk best.i best.j (best.k + 1))
    else best

/-- `find_longest_match(alo, ahi, blo, bhi)` with an empty junk set. -/
def findLongestMatch (a b : List Char) (alo ahi blo bhi : Nat) : MatchBlock :=
  flmExtendRight a b ahi bhi ahi
    (flmExtendLeft a b alo blo (flmLoop a b alo ahi blo bhi).i
      (flmLoop a b alo ahi blo bhi))

/-- Total matched size over the recursive block decomposition of
`get_matching_blocks` (the queue order does not affect the sum).
Fuel-bounded; each recursion strictly shrinks the combined range, so
fuel `(ahi-alo)+(bhi-bhi')+1` suffices. -/
def matchSumAux (a b : List Char) : Nat → Nat → Nat → Nat → Nat → Nat
  | 0, _, _, _, _ => 0
  | fuel + 1, alo, ahi, blo, bhi =>
    let m := findLongestMatch a b alo ahi blo bhi
    if m.k = 0 then 0
    else
      m.k + matchSumAux a b fuel alo m.i blo m.j +
        matchSumAux a b fuel (m.i + m.k) ahi (m.j + m.k) bhi

def matchSum (a b : List Char) : Nat :=
  matchSumAux a b (a.length + b.length + 1) 0 a.length 0 b.length

/-- `SequenceMatcher(None, a, b).ratio()`. -/
def seqRatio (a b : List Char) : ℚ :=
  if a.length + b.length = 0 then 1
  else (2 * matchSum a b : ℚ) / (a.length + b.length : ℚ)

/-! ## os.path.splitext (posixpath semantics) -/

/-- Last index of `c` in `s`, Python `s.rfind(c)` as an `Option`. -/
def rfindIdx (c : Char) (s : List Char) : Option Nat :=
  ((List.range s.length).filter (fun i => s.get? i == some c)).getLast?

/-- `os.path.splitext(s)[0]`: the extension starts at the last dot,
provided a non-dot character occurs between the start of the basename
and that dot (so ".bashrc" keeps its dot). -/
def splitextRoot (s : List Char) : List Char :=
  match rfindIdx '.' s with
  | none => s
  | some d =>
    let fstart := match rfindIdx '/' s with
      | none => 0
      | some si => si + 1
    if (match rfindIdx '/' s with
        | none => true
        | some si => si < d : Bool) then
      if ((s.drop fstart).take (d - fstart)).any (fun c => c != '.') then
        s.take d
      else s
    else s

/-! ## The similarity-based item matcher — alpha/fileserver/src/main.py -/

/-- External catalog entry (the metadata service's Item). -/
structure Item where
  item_id : Nat
  category : String
  type : String
  name : String
  details : Option String
  deriving Repr, DecidableEq

/-- Recorded item ↔ path binding (`/items/static` entries).  A stored
resource whose `item_path` key is missing or null is modelled by the
empty string — both are falsy in the guard `if resource_path:`. -/
structure StaticBinding where
  item_id : Nat
  item_path : String
  deriving Repr, DecidableEq

def FILE_VIEW_PREPATH : String := "http://localhost:3000/files/view/"

/-- `calculate_filename_similarity(filename, item_name)`. -/
def calculate_filename_similarity (file_name item_name : String) : ℚ :=
  seqRatio ((splitextRoot file_name.data).map pyLowerChar)
    (item_name.data.map pyLowerChar)

/-- Strip the view prepath from a stored static-resource path when
present (`if resource_path.startswith(FILE_VIEW_PREPATH): ...`). -/
def stripPrepath (p : String) : String :=
  if strStartsWith p FILE_VIEW_PREPATH then
    String.mk (p.data.drop FILE_VIEW_PREPATH.data.length)
  else p

/-- The binding test of the first loop of `predict_item_id`:
the resource has a truthy `item_path` and, after prepath stripping,
`file_path in resource_path`. -/
def bindingMatches (file_path : String) (b : StaticBinding) : Bool :=
  (b.item_path != "") && strContainsSub (stripPrepath b.item_path) file_path

/-! ### The three id-extraction regexes

`re.search` is leftmost-match; `\d+` is greedy.  Each function returns
`int(match.group(1))` of the first match, if any. -/

/-- Maximal leading digit run. -/
def maxDigitRun (s : List Char) : List Char := s.takeWhile pyIsDigit

/-- After a literal "item": optional single `_` or `-`, then digits.
Backtracking note: if the separator is present but not followed by a
digit, retrying without the separator also fails (the separator is not
a digit), so failing outright is faithful. -/
def afterItemLit : List Char → Option Nat
  | [] => none
  | c :: rest =>
    if c = '_' || c = '-' then
      let run := maxDigitRun rest
      if run.isEmpty then none else some (digitsToNat run)
    else
      let run := maxDigitRun (c :: rest)
      if run.isEmpty then none else some (digitsToNat run)

/-- Match of `item[_-]?(\d+)` anchored at the head of `s`. -/
def tryItemAt (s : List Char) : Option Nat :=
  match s with
  | 'i' :: 't' :: 'e' :: 'm' :: rest => afterItemLit rest
  | _ => none

/-- `re.search(r'item[_-]?(\d+)', s)`, leftmost occurrence. -/
def findPatItem : List Char → Option Nat
  | [] => none
  | c :: rest =>
    match tryItemAt (c :: rest) with
    | some n => some n
    | none => findPatItem rest

/-- `re.search(r'(\d+)[_-]', s)`: the leftmost maximal digit run that
is immediately followed by `_` or `-` (positions inside a failed run
cannot start a match, so the scan resumes after the run).
Fuel-bounded; fuel `s.length + 1` suffices since every step drops at
least one character. -/
def findPatNumSepF : Nat → List Char → Option Nat
  | 0, _ => none
  | _, [] => none
  | fuel + 1, c :: rest =>
    if pyIsDigit c then
      let run := maxDigitRun (c :: rest)
      match (c :: rest).drop run.length with
      | [] => none
      | d :: after =>
        if d = '_' || d = '-' then some (digitsToNat run)
        else findPatNumSepF fuel (d :: after)
    else findPatNumSepF fuel rest

def findPatNumSep (s : List Char) : Option Nat :=
  findPatNumSepF (s.length + 1) s

/-- `re.search(r'^(\d+)$', s)`: the whole string is digits. -/
def patPureNum (s : List Char) : Option Nat :=
  if !s.isEmpty && s.all pyIsDigit then some (digitsToNat s) else none

/-- The `id_patterns` list, in the order the code tries them. -/
def idPatterns : List (List Char → Option Nat) :=
  [findPatItem, findPatNumSep, patPureNum]

/-- The `for pattern in id_patterns` loop: each pattern whose extracted
number equals `item_id` adds `0.5` to the running similarity (there is
no break, so several patterns can each add their boost). -/
def scoreIdLoop (fb : List Char) (item_id : Nat) (sim : ℚ) : ℚ :=
  idPatterns.foldl
    (fun s pat =>
      match pat fb with
      | some n => if n = item_id then s + 1/2 else s
      | none => s)
    sim

/-- Number of the three patterns whose extracted id equals `item_id`
(specification-side count used to state the amended claim C5). -/
def idBonusCount (fb : List Char) (item_id : Nat) : Nat :=
  (if findPatItem fb = some item_id then 1 else 0) +
    (if findPatNumSep fb = some item_id then 1 else 0) +
    (if patPureNum fb = some item_id then 1 else 0)

/-- The details boost: `+0.3` when the lowered full filename occurs in
the lowered details, or any whitespace token of the details occurs in
the lowered filename.  (`part.lower()` on an already-lowered token is
the identity.)  A missing, null or empty `details` is falsy. -/
def detailsBonus (file_name : String) (details : Option String) : ℚ :=
  match details with
  | none => 0
  | some d =>
    if d = "" then 0
    else
      let dl := pyLower d
      let fl := pyLower file_name
      if strContainsSub dl fl ||
          (pySplitWs dl.data).any (fun part => listContainsSub part fl.data) then
        3/10
      else 0

/-- Per-candidate score, mirroring the body of the candidates loop:
base similarity, then the id-pattern loop, then the details check. -/
def itemScore (file_name : String) (it : Item) : ℚ :=
  let sim := calculate_filename_similarity file_name it.name
  let sim := scoreIdLoop (splitextRoot file_name.data) it.item_id sim
  sim + detailsBonus file_name it.details

/-- Stable descending insertion used to model
`candidates.sort(key=lambda x: x[1], reverse=True)`. -/
def insertDesc (x : Nat × ℚ) : List (Nat × ℚ) → List (Nat × ℚ)
  | [] => [x]
  | y :: ys => if x.2 > y.2 then x :: y :: ys else y :: insertDesc x ys

def sortDesc (l : List (Nat × ℚ)) : List (Nat × ℚ) :=
  l.foldl (fun acc x => insertDesc x acc) []

/-- `predict_item_id(file_path, file_name, items_dict, static_resources)`.
Dict iteration order is insertion order, modelled by the lists.
`os.sep` is `/` (the service runs on a posix filesystem). -/
def predict_item_id (file_path file_name : String) (items : List Item)
    (static_resources : List StaticBinding) : Option Nat :=
  match static_resources.find? (bindingMatches file_path) with
  | some b => some b.item_id
  | none =>
    let parts := pySplitChar '/' file_path.data
    if parts.length < 2 then none
    else
      let category := parts.getD 0 []
      let ftype := parts.getD 1 []
      let candidates :=
        (items.filter (fun it => it.category.data == category && it.type.data == ftype)).map
          (fun it => (it.item_id, itemScore file_name it))
      match sortDesc candidates with
      | [] => none
      | c :: _ => some c.1

/-! ## GET /files — alpha/fileserver/src/main.py (list_files)

The two metadata fetches (`get_all_items`, `get_all_static_resources`)
return `{}` both on a non-200 status and on a network exception; the
outcome of the HTTP call is an explicit oracle here. -/

/-- Outcome of one upstream HTTP GET. -/
inductive FetchResult (α : Type) where
  | ok (value : α)
  | httpError (code : Nat)
  | netError
  deriving Repr

/-- The fetch did not deliver a 200 payload. -/
def FetchResult.failed {α : Type} : FetchResult α → Bool
  | .ok _ => false
  | .httpError _ => true
  | .netError => true

/-- `get_all_items`: items dict on success, `{}` on non-200 or
exception.  (The dict is keyed by `item_id`; catalog ids are unique,
so the list models it in iteration order.) -/
def get_all_items : FetchResult (List Item) → List Item
  | .ok items => items
  | .httpError _ => []
  | .netError => []

/-- `get_all_static_resources`: same shape for `/items/static`. -/
def get_all_static_resources : FetchResult (List StaticBinding) → List StaticBinding
  | .ok l => l
  | .httpError _ => []
  | .netError => []

/-- One entry of the `/files` listing. -/
structure FileInfo where
  path : String
  file_name : String
  item_id : Option Nat
  item_name : Option String
  category : Option String
  type : Option String
  deriving Repr, DecidableEq

/-- The JSON body of `GET /files` plus its HTTP status. -/
structure ListFilesResponse where
  files : List FileInfo
  total : Nat
  status : Nat
  deriving Repr, DecidableEq

def lookupItem (items : List Item) (n : Nat) : Option Item :=
  items.find? (fun it => it.item_id == n)

/-- `list_files`: `walked` is the `os.walk` enumeration of the storage
root as (relative_path, file_name) pairs.  The guard
`if item_id and item_id in all_items:` treats both `None` and `0` as
falsy. -/
def list_files (walked : List (String × String))
    (itemsFetch : FetchResult (List Item))
    (staticFetch : FetchResult (List StaticBinding)) : ListFilesResponse :=
  let all_items := get_all_items itemsFetch
  let statics := get_all_static_resources staticFetch
  let all_files := walked.map (fun pf =>
    let iid := predict_item_id pf.1 pf.2 all_items statics
    let base : FileInfo := ⟨pf.1, pf.2, iid, none, none, none⟩
    match iid with
    | some n =>
      if (n != 0) && all_items.any (fun it => it.item_id == n) then
        match lookupItem all_items n with
        | some it => ⟨pf.1, pf.2, iid, some it.name, some it.category, some it.type⟩
        | none => base
      else base
    | none => base)
  ⟨all_files, all_files.length, 200⟩

/-- Amended wording of the spec's sanitizer description: *space*
characters become underscores (other whitespace is simply stripped by
the character filter), then everything outside `[A-Za-z0-9_.-]` is
removed, with the `"unnamed_file"` fallback.  Modelled from the
amended claim for comparison with `sanitize_filename`. -/
def sanitizeFilenameAmended (name : String) : String :=
  let s := (name.data.map (fun c => if c = ' ' then '_' else c)).filter allowedFilenameChar
  if s.isEmpty then "unnamed_file" else String.mk s

/-! ## Filesystem trees -/

/-- A directory tree: files carry an abstract content tag, directories
carry their entries in listing order. -/
inductive FsTree where
  | file (content : Nat)
  | dir (entries : List (String × FsTree))
  deriving Repr

def FsTree.isDir : FsTree → Bool
  | .dir _ => true
  | .file _ => false

/-- Names of the top-level entries of a listing. -/
def entryNames (es : List (String × FsTree)) : List String :=
  es.map Prod.fst

/-! ## upload_folder_direct root discovery — alpha/fileserver/src/main.py

After `tar.extractall` into the staging directory, the code collects
the top-level *directories* (`source_folders`).  If there is exactly
one, it descends while the current directory holds a single
subdirectory (a single file stops the walk at its parent), and copies
the final directory's listing into the destination; otherwise it
copies every top-level staging entry. -/

/-- The wrapper-descent loop starting at a directory: descend while the
listing is exactly one subdirectory; a single file, an empty listing or
several entries stop the walk, whose result is the current listing. -/
def payloadEntries : FsTree → List (String × FsTree)
  | .file _ => []
  | .dir [(_, FsTree.dir inner)] => payloadEntries (FsTree.dir inner)
  | .dir es => es

/-- Entries copied into the destination folder, as a function of the
staging directory's top-level listing. -/
def resolveCopiedEntries (staging : List (String × FsTree)) : List (String × FsTree) :=
  match staging.filter (fun e => e.2.isDir) with
  | [d] => payloadEntries d.2
  | _ => staging

/-! ## process_restore_archive — stable/fileserver/src/main.py

State model: the live `db` tree (`Option FsTree`, `none` when the
folder does not exist).  The code copies the live tree aside, empties
the files of the live tree (keeping directories), then extracts the
zip members that start with `db/`; the extraction is modelled as a
sequence of file writes, together with an oracle saying whether (and
after how many writes) `zipfile` raises.  On an exception the status
is set to failed with the error recorded, and the code attempts
`rmtree(db)` followed by `copytree(backup, db)`; the success of that
best-effort recovery is a second oracle. -/

mutual

/-- Empty the files of a tree, keeping the directory structure
(`for root, dirs, files in os.walk(DB_FOLDER): for f in files: os.remove(...)`). -/
def emptyFilesTree : FsTree → FsTree
  | .file c => .file c
  | .dir es => .dir (emptyFilesList es)

def emptyFilesList : List (String × FsTree) → List (String × FsTree)
  | [] => []
  | (n, FsTree.dir t) :: rest => (n, emptyFilesTree (FsTree.dir t)) :: emptyFilesList rest
  | (_, FsTree.file _) :: rest => emptyFilesList rest

end

/-- Child lookup in a listing. -/
def childOf (es : List (String × FsTree)) (name : String) : Option FsTree :=
  match es.find? (fun e => e.1 == name) with
  | some e => some e.2
  | none => none

/-- Replace (or append) the child `name` in a listing. -/
def upsertChild (es : List (String × FsTree)) (name : String) (t : FsTree) :
    List (String × FsTree) :=
  match es with
  | [] => [(name, t)]
  | (n, t0) :: rest =>
    if n = name then (n, t) :: rest else (n, t0) :: upsertChild rest name t

/-- Write one file at `path` below the tree, creating intermediate
directories (zip extraction creates parents as needed). -/
def insertFile : FsTree → List String → Nat → FsTree
  | t, [], _ => t
  | .file c0, _ :: _, _ => .file c0
  | .dir es, [name], c => .dir (upsertChild es name (.file c))
  | .dir es, name :: seg :: rest, c =>
    let child := match childOf es name with
      | some (FsTree.dir inner) => FsTree.dir inner
      | _ => FsTree.dir []
    .dir (upsertChild es name (insertFile child (seg :: rest) c))

/-- Apply a sequence of extraction writes. -/
def applyWrites (t : FsTree) (ws : List (List String × Nat)) : FsTree :=
  ws.foldl (fun acc w => insertFile acc w.1 w.2) t

/-- Status record of an operation after the restore task ran. -/
structure OpRecord where
  status : String
  error : Option String
  deriving Repr, DecidableEq

/-- `process_restore_archive(operation_id, zip_path)` as a state
transformer.  `writes` are the zip members below `db/` in archive
order; `raiseAt = some (k, msg)` means the extraction raises with
message `msg` after `k` successful writes; `rollbackOk` tells whether
the best-effort `rmtree` + `copytree` recovery itself succeeds. -/
def process_restore_archive (live : Option FsTree)
    (writes : List (List String × Nat)) (raiseAt : Option (Nat × String))
    (rollbackOk : Bool) : Option FsTree × OpRecord :=
  let backup : Option FsTree := live
  let emptied : Option FsTree :=
    match live with
    | some t => some (emptyFilesTree t)
    | none => none
  let base : FsTree :=
    match emptied with
    | some t => t
    | none => .dir []
  match raiseAt with
  | none => (some (applyWrites base writes), ⟨"completed", none⟩)
  | some (k, msg) =>
    let partialTree := applyWrites base (writes.take k)
    if rollbackOk then
      match backup with
      | some b => (some b, ⟨"failed", some msg⟩)
      | none => (some partialTree, ⟨"failed", some msg⟩)
    else (some partialTree, ⟨"failed", some msg⟩)

/-! ## Chunked restore — stable/fileserver/src/main.py (restore_db)

The chunked branch of `POST /restore`: the initial request (no
`operation_id`) registers the operation with
`total_chunks = int(request.headers['X-Total-Chunks'])` and
`chunks_received = 0`; each later request saves its chunk to
`chunk_{chunk_number}`, increments `chunks_received`, and when
`chunks_received >= total_chunks` concatenates `chunk_0 ..
chunk_{total-1}` in index order into one archive, sets the status to
`processing` and starts the restore pipeline thread.

IMPORTANT DEFECT IN THE SOURCE.  The chunk-completion block
(`if op_info['chunks_received'] >= op_info['total_chunks']:`, lines
822-859) is indented sixteen spaces directly after the twelve-space
statement `op_info['chunks_received'] += 1` (line 818), separated only
by blank lines and a column-0 comment, which the tokenizer ignores.
No suite is open at that depth, so importing the module raises
`IndentationError: unexpected indent` and *no* code of this file can
run.  This is formalised below (`pyIndentCheck`,
`restoreDbChunkRegion`).  The state machine that follows
(`ChunkState`, `uploadChunk`, `runUploads`) therefore embeds the block
as it is evidently intended — dedented four spaces, inside the
chunk-upload branch where its comment and its uses of `chunk_number`
place it — and is used to show that the intended block has exactly the
claimed behaviour; it is *not* a model of the (unparseable) file as
shipped.  Chunk bytes are modelled as `List Nat`.  A missing chunk
file would make `open` raise (handled by the catch-all, no state
transition); the guard models that. -/

/-- A logical source line, reduced to what Python's tokenizer uses for
block structure: its indentation column and whether it opens a suite
(ends with a colon).  Blank lines, comment-only lines and the
continuation lines of an open bracket do not generate INDENT/DEDENT
tokens and are not listed. -/
structure PyLine where
  indent : Nat
  opensSuite : Bool
  deriving Repr, DecidableEq

/-- Dedent handling: pop the indent stack down to an exactly matching
level; failure to find one is an IndentationError. -/
def popToLevel : List Nat → Nat → Option (List Nat)
  | [], _ => none
  | s :: rest, i => if i = s then some (s :: rest) else popToLevel rest i

/-- Python's indentation rule over logical lines, starting from the
given stack of open indent levels (innermost first) and a flag saying
whether the previous line opened a suite.  Returns `true` iff
tokenization fails: a line deeper than the current level is only legal
directly after a suite opener ("unexpected indent" otherwise), a suite
opener must be followed by a deeper line, and a dedent must return to
a level on the stack. -/
def pyIndentCheck : List Nat → Bool → List PyLine → Bool
  | _, _, [] => false
  | stack, expect, l :: rest =>
    let cur := stack.headD 0
    if expect then
      if l.indent > cur then pyIndentCheck (l.indent :: stack) l.opensSuite rest
      else true
    else if l.indent > cur then true
    else if l.indent = cur then pyIndentCheck stack l.opensSuite rest
    else
      match popToLevel stack l.indent with
      | some stack2 => pyIndentCheck stack2 l.opensSuite rest
      | none => true

/-- The logical lines of restore_db around the chunk-completion block
(stable main.py lines 811-822), with their indentation as in the file:

* `chunk = request.files['file']` — 12 spaces;
* `chunk_number = int(request.args.get('chunk_number', '0'))` — 12;
* `chunk_path = os.path.join(...)` (one logical line with its
  bracketed continuation) — 12;
* `chunk.save(chunk_path)` — 12;
* `op_info['chunks_received'] += 1` — 12;
* `if op_info['chunks_received'] >= op_info['total_chunks']:` — 16.

The enclosing suites at that point are the module (0), the function
body (4), the `try` body (8) and the `else:` branch (12). -/
def restoreDbChunkRegion : List PyLine :=
  [⟨12, false⟩, ⟨12, false⟩, ⟨12, false⟩, ⟨12, false⟩, ⟨12, false⟩, ⟨16, true⟩]

/-- Registry record of a chunked restore operation. -/
structure ChunkState where
  status : String
  chunksReceived : Nat
  totalChunks : Nat
  chunks : List (Nat × List Nat)
  deriving Repr, DecidableEq

/-- The initial registration request (`operation_id` absent). -/
def initChunked (totalHeader : Nat) : ChunkState :=
  ⟨"receiving_chunks", 0, totalHeader, []⟩

/-- `chunk.save(chunk_path)`: (over)write the file `chunk_{num}`. -/
def saveChunk (chunks : List (Nat × List Nat)) (num : Nat) (data : List Nat) :
    List (Nat × List Nat) :=
  match chunks with
  | [] => [(num, data)]
  | (n, d) :: rest =>
    if n = num then (n, data) :: rest else (n, d) :: saveChunk rest num data

def lookupChunk (chunks : List (Nat × List Nat)) (num : Nat) : Option (List Nat) :=
  match chunks with
  | [] => none
  | (n, d) :: rest => if n = num then some d else lookupChunk rest num

/-- Outcome of one chunk-upload request. -/
structure ChunkStepResult where
  state : ChunkState
  combined : Option (List Nat)
  pipelineInvoked : Bool
  deriving Repr, DecidableEq

/-- One chunk-upload request for an existing chunked operation,
with the completion block placed as evidently intended (see the
section note: in the file as shipped that block does not parse). -/
def uploadChunk (st : ChunkState) (num : Nat) (data : List Nat) : ChunkStepResult :=
  let chunks1 := saveChunk st.chunks num data
  let received1 := st.chunksReceived + 1
  if received1 ≥ st.totalChunks then
    if (List.range st.totalChunks).all (fun i => (lookupChunk chunks1 i).isSome) then
      let combined :=
        (List.range st.totalChunks).foldl
          (fun acc i => acc ++ (lookupChunk chunks1 i).getD []) []
      ⟨⟨"processing", received1, st.totalChunks, chunks1⟩, some combined, true⟩
    else
      ⟨⟨st.status, received1, st.totalChunks, chunks1⟩, none, false⟩
  else
    ⟨⟨st.status, received1, st.totalChunks, chunks1⟩, none, false⟩

/-- Accumulated effect of a sequence of chunk uploads. -/
structure ChunkRunResult where
  state : ChunkState
  pipelineCount : Nat
  lastCombined : Option (List Nat)
  deriving Repr, DecidableEq

def chunkStep (acc : ChunkRunResult) (u : Nat × List Nat) : ChunkRunResult :=
  let r := uploadChunk acc.state u.1 u.2
  ⟨r.state, acc.pipelineCount + (if r.pipelineInvoked then 1 else 0),
    match r.combined with
    | some c => some c
    | none => acc.lastCombined⟩

/-- Run the sequential chunk uploads `us` against a fresh
registration (intended semantics of the chunked branch; the shipped
file cannot execute it, see the section note). -/
def runUploads (st : ChunkState) (us : List (Nat × List Nat)) : ChunkRunResult :=
  us.foldl chunkStep ⟨st, 0, none⟩

/-! ## generate_operation_id — stable/fileserver/src/main.py

`return str(int(time.time() * 1000))`: the submission time in epoch
seconds (modelled as `ℚ`) scaled to milliseconds and truncated. -/

def generate_operation_id (t : ℚ) : String :=
  toString ⌊t * 1000⌋

/-! ## handle_file_operation upload/update — stable/fileserver/src/main.py

The storage is a map from full path to content (`List (String × Nat)`),
`secure_filename` (werkzeug) is an external oracle `sf`, and the
libmagic content check `is_valid_file_type` is the oracle `magicOk`.
`os.path.flatten` on the relative components used here is plain
`/`-concatenation. -/

/-- The `ALLOWED_EXTENSIONS` table (a missing key means any extension
is allowed). -/
def ALLOWED_EXTENSIONS : String → Option (List String)
  | "image" => some ["png", "jpg", "jpeg", "gif", "webp"]
  | "video" => some ["mp4", "mov", "avi", "mkv", "webm"]
  | "audio" => some ["mp3", "wav", "ogg", "flac"]
  | "document" => some ["pdf", "doc", "docx", "txt", "rtf"]
  | "archive" => some ["zip", "rar", "7z", "tar", "gz"]
  | "code" => some ["py", "js", "html", "css", "java", "cpp", "c", "h", "php"]
  | "txt" => some ["txt"]
  | _ => none

/-- `filename.rsplit('.', 1)[1]` for a filename containing a dot. -/
def extAfterLastDot (s : List Char) : List Char :=
  match rfindIdx '.' s with
  | some i => s.drop (i + 1)
  | none => []

/-- `allowed_file(filename, item_type)`. -/
def allowed_file (filename : String) (item_type : String) : Bool :=
  if !filename.data.contains '.' then false
  else
    match ALLOWED_EXTENSIONS item_type with
    | none => true
    | some exts => exts.contains (String.mk ((extAfterLastDot filename.data).map pyLowerChar))

/-- Response of the upload/update branch of `handle_file_operation`. -/
inductive FileOpResponse where
  | ok (message : String) (url : String) (code : Nat)
  | err (message : String) (code : Nat)
  deriving Repr, DecidableEq

def upsertStore (fs : List (String × Nat)) (path : String) (content : Nat) :
    List (String × Nat) :=
  match fs with
  | [] => [(path, content)]
  | (p, c) :: rest =>
    if p = path then (p, content) :: rest else (p, c) :: upsertStore rest path content

def lookupStore (fs : List (String × Nat)) (path : String) : Option Nat :=
  match fs with
  | [] => none
  | (p, c) :: rest => if p = path then some c else lookupStore rest path

/-- The `operation in ['upload', 'update']` branch of
`handle_file_operation`, with `category`/`item_type` already resolved
(either passed directly or read from the item).  `providedFilename` is
the `filename` query arg (`None`/empty falls back to the multipart
filename); `file.save(file_path)` overwrites whatever is at the path. -/
def handle_upload_operation (operation : String) (fs : List (String × Nat))
    (sf : String → String) (providedFilename : Option String)
    (fileFilename : String) (content : Nat) (category item_type : String)
    (magicOk : Bool) : FileOpResponse × List (String × Nat) :=
  let original := sf (match providedFilename with
    | some f => if f = "" then fileFilename else f
    | none => fileFilename)
  if original = "" then (.err "Invalid filename" 400, fs)
  else if !allowed_file original item_type then
    (.err ("File extension not allowed for type " ++ item_type) 400, fs)
  else if !magicOk then
    (.err "Invalid file content for specified type" 400, fs)
  else if category = "" || item_type = "" then
    (.err "Missing category or type information" 400, fs)
  else
    let file_path := "db/" ++ category ++ "/" ++ item_type ++ "/" ++ sf original
    ((.ok
        (if operation = "update" then "File updated successfully"
          else "File uploaded successfully")
        ("/files/" ++ category ++ "/" ++ item_type ++ "/" ++ original)
        (if operation = "update" then 200 else 201)),
      upsertStore fs file_path content)

/-! ## Read-side endpoints — beta/fileserver/src/serve.py

Every handler normalises the requested path with `os.path.normpath`,
aborts with 403 when the result starts with `".."`, and wraps its whole
body in `try: ... except Exception as e: return {"error": str(e)}, 500`.
`abort(n)` raises a werkzeug `HTTPException`, which *is* an `Exception`
and is therefore converted by that catch-all into a 500 error payload
(carrying the original status in `str(e)`). -/

/-- One step of posixpath.normpath's component loop. -/
def normStep (initialSlashes : Bool) (acc : List (List Char)) (comp : List Char) :
    List (List Char) :=
  if comp = [] || comp = ['.'] then acc
  else if comp ≠ ['.', '.'] then acc ++ [comp]
  else if (!initialSlashes && acc.isEmpty) ||
      (!acc.isEmpty && acc.getLast? = some ['.', '.']) then acc ++ [comp]
  else if !acc.isEmpty then acc.dropLast
  else acc

/-- Number of leading slashes preserved by posixpath.normpath
(`//x` keeps two, `/x` and `///x` keep one). -/
def pyInitialSlashes (cs : List Char) : Nat :=
  if listStartsWith ['/'] cs then
    if listStartsWith ['/', '/'] cs && !listStartsWith ['/', '/', '/'] cs then 2 else 1
  else 0

/-- Component list of the normalised path. -/
def pyNormpathComps (s : String) : List (List Char) :=
  (pySplitChar '/' s.data).foldl (normStep (pyInitialSlashes s.data > 0)) []

/-- `'/'.flatten`. -/
def joinSlash : List (List Char) → List Char
  | [] => []
  | [g] => g
  | g :: gs => g ++ '/' :: joinSlash gs

/-- `posixpath.normpath`. -/
def pyNormpath (s : String) : String :=
  if s.data = [] then "."
  else
    let ini := pyInitialSlashes s.data
    let joined := List.replicate ini '/' ++ joinSlash (pyNormpathComps s)
    if joined = [] then "." else String.mk joined

/-- The normalised path still contains a parent-directory component —
the claim's "resolved path contains a parent-directory escape". -/
def hasParentEscape (p : String) : Bool :=
  decide (['.', '.'] ∈ pyNormpathComps p)

/-- `os.path.flatten(base, p)` for the shapes occurring here: an absolute
second argument discards the base. -/
def osJoin (base p : String) : String :=
  if strStartsWith p "/" then p else base ++ "/" ++ p

/-- Filesystem oracle for the read-side handlers. -/
structure ServeFs where
  isFile : String → Bool
  isDir : String → Bool
  pathExists : String → Bool
  fileContent : String → Nat
  walkNames : String → List String
  listDir : String → List String

/-- Response of a read-side handler. -/
inductive ServeResp where
  | fileData (content : Nat)
  | zipData (names : List String)
  | listing (entries : List String)
  | errorCaught (origStatus : Nat)
  deriving Repr, DecidableEq

/-- HTTP status of the response: the catch-all returns 500. -/
def ServeResp.httpStatus : ServeResp → Nat
  | .fileData _ => 200
  | .zipData _ => 200
  | .listing _ => 200
  | .errorCaught _ => 500

/-- Does the response carry file data or a directory listing? -/
def ServeResp.servesData : ServeResp → Bool
  | .fileData _ => true
  | .zipData _ => true
  | .listing _ => true
  | .errorCaught _ => false

/-- `GET /files/download/<path>`. -/
def download_file (fs : ServeFs) (file_path : String) : ServeResp :=
  let body : Except Nat ServeResp :=
    let safe := pyNormpath file_path
    if strStartsWith safe ".." then .error 403
    else
      let full := osJoin "db" safe
      if !fs.isFile full then .error 404
      else .ok (.fileData (fs.fileContent full))
  match body with
  | .ok r => r
  | .error code => .errorCaught code

/-- `GET /files/view/<path>` (same checks; only the response headers
differ from `download_file`). -/
def view_file (fs : ServeFs) (file_path : String) : ServeResp :=
  let body : Except Nat ServeResp :=
    let safe := pyNormpath file_path
    if strStartsWith safe ".." then .error 403
    else
      let full := osJoin "db" safe
      if !fs.isFile full then .error 404
      else .ok (.fileData (fs.fileContent full))
  match body with
  | .ok r => r
  | .error code => .errorCaught code

/-- `GET /files/download-folder/<path>`: zips the folder's files. -/
def download_folder (fs : ServeFs) (folder_path : String) : ServeResp :=
  let body : Except Nat ServeResp :=
    let safe := pyNormpath folder_path
    if strStartsWith safe ".." then .error 403
    else
      let full := osJoin "db" safe
      if !fs.isDir full then .error 404
      else .ok (.zipData (fs.walkNames full))
  match body with
  | .ok r => r
  | .error code => .errorCaught code

/-- `GET /files/browse[/<path>]`: listing for directories, delegation
to `view_file` for files. -/
def browse_files (fs : ServeFs) (folder_path : String) : ServeResp :=
  let body : Except Nat ServeResp :=
    let safe := pyNormpath folder_path
    if strStartsWith safe ".." then .error 403
    else
      let full := osJoin "db" safe
      if !fs.pathExists full then .error 404
      else if fs.isFile full then .ok (view_file fs folder_path)
      else .ok (.listing (fs.listDir full))
  match body with
  | .ok r => r
  | .error code => .errorCaught code

/-- An empty filesystem oracle, used for concrete instances. -/
def trivialServeFs : ServeFs :=
  ⟨fun _ => false, fun _ => false, fun _ => false, fun _ => 0, fun _ => [], fun _ => []⟩

/-- Concrete staging listing: one top-level directory and one
top-level file (two entries, one directory). -/
def stagingMixedExample : List (String × FsTree) :=
  [("x", .dir [("a", .file 1), ("b", .file 2)]), ("f", .file 3)]

/-- Concrete staging listing with two top-level directories. -/
def stagingTwoDirsExample : List (String × FsTree) :=
  [("x", .dir [("a", .file 1)]), ("y", .dir [("c", .file 2)])]

end LocalDb

namespace LocalDb

theorem sanitize_keeps_allowed (name : String) :
    ∀ c ∈ (sanitize_filename name).data, allowedFilenameChar c = true := by
  intro c hc
  unfold sanitize_filename at hc
  by_cases h :
      ((name.data.filter (fun c => !invalidFilenameChar c)).map
        (fun c => if c = ' ' then '_' else c)).filter
          (fun c => pyIsWordChar c || c = '-' || c = '.') |>.isEmpty
  · simp only [h, if_pos] at hc
    fin_cases hc <;> decide
  · simp only [h, if_neg, Bool.not_eq_true] at hc
    have := List.of_mem_filter hc
    revert this
    unfold pyIsWordChar pyIsDigit allowedFilenameChar
    intro h2
    simp only [Bool.or_eq_true, Bool.and_eq_true, decide_eq_true_eq] at h2 ⊢
    tauto

theorem sanitize_nonempty (name : String) :
    (sanitize_filename name).data ≠ [] := by
  unfold sanitize_filename
  by_cases h :
      ((name.data.filter (fun c => !invalidFilenameChar c)).map
        (fun c => if c = ' ' then '_' else c)).filter
          (fun c => pyIsWordChar c || c = '-' || c = '.') |>.isEmpty
  · simp [h]
  · simp only [h, if_neg, Bool.not_eq_true]
    simpa [List.isEmpty_iff] using h

/-- Characters of the removed class `[\\/*?:"<>|]` are outside the
allowed alphabet (so the first `re.sub` is subsumed by the third). -/
theorem invalid_not_allowed (c : Char) (h : invalidFilenameChar c = true) :
    allowedFilenameChar c = false := by
  unfold invalidFilenameChar at h
  simp only [Bool.or_eq_true, decide_eq_true_eq] at h
  rcases h with ((((((((rfl | rfl) | rfl) | rfl) | rfl) | rfl) | rfl) | rfl) | rfl) <;>
    decide

/-- The keep-filter of `sanitize_filename` and the allowed alphabet of
the spec agree on every character (ASCII `\w` plus dot and dash). -/
theorem wordChar_eq_allowed (c : Char) :
    (pyIsWordChar c || c = '-' || c = '.') = allowedFilenameChar c := by
  have hbool : ∀ x y : Bool, (x = true ↔ y = true) → x = y := by decide
  apply hbool
  unfold pyIsWordChar pyIsDigit allowedFilenameChar
  simp only [Bool.or_eq_true, Bool.and_eq_true, decide_eq_true_eq]
  tauto

/-- No character of the removed class is a space. -/
theorem invalid_not_space (c : Char) (h : invalidFilenameChar c = true) :
    (if c = ' ' then '_' else c) = c := by
  unfold invalidFilenameChar at h
  simp only [Bool.or_eq_true, decide_eq_true_eq] at h
  rcases h with ((((((((rfl | rfl) | rfl) | rfl) | rfl) | rfl) | rfl) | rfl) | rfl) <;>
    decide

theorem sanitize_filter_core (l : List Char) :
    ((l.filter (fun c => !invalidFilenameChar c)).map
        (fun c => if c = ' ' then '_' else c)).filter
      (fun c => pyIsWordChar c || c = '-' || c = '.') =
    (l.map (fun c => if c = ' ' then '_' else c)).filter allowedFilenameChar := by
  have hpred : (fun c => pyIsWordChar c || c = '-' || c = '.') = allowedFilenameChar :=
    funext (fun c => wordChar_eq_allowed c)
  rw [hpred]
  induction l with
  | nil => rfl
  | cons c l ih =>
    by_cases hc : invalidFilenameChar c = true
    · have h1 := invalid_not_allowed c hc
      have h2 := invalid_not_space c hc
      simp [List.filter_cons, List.map_cons, hc, h2, h1, ih]
    · simp only [Bool.not_eq_true] at hc
      simp [List.filter_cons, List.map_cons, hc, ih]

theorem sanitize_eq_amended (name : String) :
    sanitize_filename name = sanitizeFilenameAmended name := by
  unfold sanitize_filename sanitizeFilenameAmended
  simp only [sanitize_filter_core]



end LocalDb

namespace LocalDb

/-! ## Claim theorems: C6, C1, C5, C9 -/

/-- C6, counterexample: `sanitize_filename` does not turn the tab (a
whitespace character) into an underscore — it deletes it.  On
`"a\tb"` the code yields `"ab"` whereas the claim's
whitespace-to-underscore reading (`sanitizeFilenameClaim`) demands
`"a_b"`. -/
theorem sanitize_filename_whitespace_cex :
    sanitize_filename "a\tb" = "ab" ∧
    sanitizeFilenameClaim "a\tb" = "a_b" ∧
    sanitize_filename "a\tb" ≠ sanitizeFilenameClaim "a\tb" := by
  refine ⟨by decide, by decide, by decide⟩

/-- C6, amended: for every input over the ASCII range (where the
embedding of Python's `\w` is exact), `sanitize_filename` equals the
amended description — spaces become underscores, characters outside
`[A-Za-z0-9_.-]` are stripped (other whitespace in particular), with
the `"unnamed_file"` fallback — and its output is nonempty and drawn
from the allowed alphabet only. -/
theorem sanitize_filename_amended_ok (name : String)
    (_ascii : ∀ c ∈ name.data, c.toNat < 128) :
    sanitize_filename name = sanitizeFilenameAmended name ∧
    (sanitize_filename name).data ≠ [] ∧
    ∀ c ∈ (sanitize_filename name).data, allowedFilenameChar c = true :=
  ⟨sanitize_eq_amended name, sanitize_nonempty name, sanitize_keeps_allowed name⟩

theorem sanitize_filename_amended_ok_witness :
    (∀ c ∈ ("My File?.txt" : String).data, c.toNat < 128) ∧
    (sanitize_filename "My File?.txt" = sanitizeFilenameAmended "My File?.txt" ∧
      (sanitize_filename "My File?.txt").data ≠ [] ∧
      ∀ c ∈ (sanitize_filename "My File?.txt").data, allowedFilenameChar c = true) :=
  ⟨by decide, sanitize_filename_amended_ok "My File?.txt" (by decide)⟩

/-- C1: if any static binding's path (prefix-stripped) contains the
relative path as a substring, `predict_item_id` returns the item id of
such a binding (the first one in registry order), and the result does
not depend on the catalog or on the filename — the category/type
filter and the similarity scoring are never consulted. -/
theorem predict_item_id_binding_short_circuit
    (fp fn fn2 : String) (items items2 : List Item) (bs : List StaticBinding)
    (h : ∃ b ∈ bs, bindingMatches fp b = true) :
    (∃ b ∈ bs, bindingMatches fp b = true ∧
      predict_item_id fp fn items bs = some b.item_id) ∧
    predict_item_id fp fn items bs = predict_item_id fp fn2 items2 bs := by
  rcases hf : bs.find? (bindingMatches fp) with _ | b
  · rw [List.find?_eq_none] at hf
    obtain ⟨b, hb, hm⟩ := h
    exact absurd hm (by simpa using hf b hb)
  · constructor
    · refine ⟨b, List.mem_of_find?_eq_some hf, List.find?_some hf, ?_⟩
      unfold predict_item_id
      rw [hf]
    · unfold predict_item_id
      rw [hf]

theorem predict_item_id_binding_short_circuit_witness :
    (∃ b ∈ [StaticBinding.mk 5 "http://localhost:3000/files/view/docs/pdf/reports/q1.pdf"],
        bindingMatches "reports/q1.pdf" b = true ∧
        predict_item_id "reports/q1.pdf" "q1.pdf"
          [Item.mk 7 "docs" "pdf" "Annual Report" none]
          [StaticBinding.mk 5 "http://localhost:3000/files/view/docs/pdf/reports/q1.pdf"] =
          some b.item_id) ∧
    predict_item_id "reports/q1.pdf" "q1.pdf"
        [Item.mk 7 "docs" "pdf" "Annual Report" none]
        [StaticBinding.mk 5 "http://localhost:3000/files/view/docs/pdf/reports/q1.pdf"] =
      predict_item_id "reports/q1.pdf" "other.txt" []
        [StaticBinding.mk 5 "http://localhost:3000/files/view/docs/pdf/reports/q1.pdf"] :=
  predict_item_id_binding_short_circuit "reports/q1.pdf" "q1.pdf" "other.txt"
    [Item.mk 7 "docs" "pdf" "Annual Report" none] []
    [StaticBinding.mk 5 "http://localhost:3000/files/view/docs/pdf/reports/q1.pdf"]
    (by decide)

/-- The id-pattern loop adds exactly `0.5` for each of the three
patterns whose extracted number equals the candidate's id. -/
theorem scoreIdLoop_eq (fb : List Char) (iid : Nat) (sim : ℚ) :
    scoreIdLoop fb iid sim = sim + (idBonusCount fb iid : ℚ) * (1 / 2) := by
  unfold scoreIdLoop idPatterns idBonusCount
  cases h1 : findPatItem fb <;> cases h2 : findPatNumSep fb <;>
    cases h3 : patPureNum fb <;>
      simp [List.foldl, h1, h2, h3] <;> split_ifs <;> ring_nf

/-- C5, amended: a surviving candidate's score is the base similarity
ratio plus `0.5` for *each* of the three id-extraction patterns whose
extracted id equals the candidate's item_id (the loop has no break, so
two patterns matching at once yield `+1.0`), plus the details bonus. -/
theorem itemScore_bonus_formula (fn : String) (it : Item) :
    itemScore fn it =
      calculate_filename_similarity fn it.name +
        (idBonusCount (splitextRoot fn.data) it.item_id : ℚ) * (1 / 2) +
        detailsBonus fn it.details := by
  simp only [itemScore, scoreIdLoop_eq]

/-- C5, counterexample: on filename `"item_123_x.pdf"` and a candidate
with `item_id = 123` (empty name, no details), both `item[_-]?(\d+)`
and `(\d+)[_-]` extract `123`, so the score is base ratio `0` plus
`1.0`, not the claimed base plus exactly `0.5`. -/
theorem itemScore_double_bonus_cex :
    itemScore "item_123_x.pdf" (Item.mk 123 "docs" "pdf" "" none) = 1 ∧
    calculate_filename_similarity "item_123_x.pdf" "" = 0 ∧
    itemScore "item_123_x.pdf" (Item.mk 123 "docs" "pdf" "" none) ≠
      calculate_filename_similarity "item_123_x.pdf" "" + 1 / 2 := by
  have hM : matchSum (List.map pyLowerChar (splitextRoot "item_123_x.pdf".data))
      (List.map pyLowerChar "".data) = 0 := by decide
  have hla : (List.map pyLowerChar (splitextRoot "item_123_x.pdf".data)).length = 10 := by
    decide
  have hlb : (List.map pyLowerChar "".data).length = 0 := by decide
  have hsim : calculate_filename_similarity "item_123_x.pdf" "" = 0 := by
    unfold calculate_filename_similarity seqRatio
    rw [hM, hla, hlb]
    norm_num
  have hscore : itemScore "item_123_x.pdf" (Item.mk 123 "docs" "pdf" "" none) = 1 := by
    simp only [itemScore, scoreIdLoop_eq, detailsBonus]
    rw [hsim]
    norm_num [show
      idBonusCount (splitextRoot ['i', 't', 'e', 'm', '_', '1', '2', '3', '_', 'x',
        '.', 'p', 'd', 'f']) 123 = 2 from by decide]
  refine ⟨hscore, hsim, ?_⟩
  rw [hscore, hsim]
  norm_num

/-- C9: when both metadata fetches fail (non-200 or exception),
`GET /files` still returns a 200 listing containing every walked file,
each with `item_id = none`. -/
theorem list_files_tolerates_outage (walked : List (String × String))
    (fi : FetchResult (List Item)) (fs : FetchResult (List StaticBinding))
    (hi : fi.failed = true) (hs : fs.failed = true) :
    (list_files walked fi fs).status = 200 ∧
    (list_files walked fi fs).total = walked.length ∧
    (list_files walked fi fs).files.map (fun f => (f.path, f.file_name)) = walked ∧
    ∀ f ∈ (list_files walked fi fs).files, f.item_id = none := by
  have hitems : get_all_items fi = [] := by
    cases fi <;> simp_all [get_all_items, FetchResult.failed]
  have hstat : get_all_static_resources fs = [] := by
    cases fs <;> simp_all [get_all_static_resources, FetchResult.failed]
  have hpred : ∀ p f : String, predict_item_id p f [] [] = none := by
    intro p f
    unfold predict_item_id sortDesc
    simp
  have hlf : list_files walked fi fs =
      ⟨walked.map (fun pf => ⟨pf.1, pf.2, none, none, none, none⟩), walked.length, 200⟩ := by
    unfold list_files
    rw [hitems, hstat]
    simp [hpred]
  rw [hlf]
  refine ⟨rfl, rfl, ?_, ?_⟩
  · rw [List.map_map]
    exact List.map_id walked
  · intro f hf
    simp only [List.mem_map] at hf
    obtain ⟨pf, _, rfl⟩ := hf
    rfl

theorem list_files_tolerates_outage_witness :
    FetchResult.failed (FetchResult.netError : FetchResult (List Item)) = true ∧
    FetchResult.failed (FetchResult.httpError 500 : FetchResult (List StaticBinding)) = true ∧
    ((list_files [("docs/pdf/a.pdf", "a.pdf")] FetchResult.netError
        (FetchResult.httpError 500)).status = 200 ∧
      (list_files [("docs/pdf/a.pdf", "a.pdf")] FetchResult.netError
        (FetchResult.httpError 500)).total = [("docs/pdf/a.pdf", "a.pdf")].length ∧
      (list_files [("docs/pdf/a.pdf", "a.pdf")] FetchResult.netError
        (FetchResult.httpError 500)).files.map (fun f => (f.path, f.file_name)) =
        [("docs/pdf/a.pdf", "a.pdf")] ∧
      ∀ f ∈ (list_files [("docs/pdf/a.pdf", "a.pdf")] FetchResult.netError
        (FetchResult.httpError 500)).files, f.item_id = none) :=
  ⟨rfl, rfl,
    list_files_tolerates_outage [("docs/pdf/a.pdf", "a.pdf")]
      FetchResult.netError (FetchResult.httpError 500) rfl rfl⟩

/-! ## Claim theorems: C2, C3 -/

/-- C2, counterexample: a staging top level with two entries — one
directory `x` (holding `a`, `b`) and one file `f`.  The claim says the
staging root is then the payload root and both entries are copied; the
code counts only *directories*, finds exactly one, descends into `x`,
and copies `a`, `b` — losing the top-level file `f`. -/
theorem upload_direct_root_discovery_cex :
    stagingMixedExample.length = 2 ∧
    "f" ∈ entryNames stagingMixedExample ∧
    entryNames (resolveCopiedEntries stagingMixedExample) = ["a", "b"] ∧
    "f" ∉ entryNames (resolveCopiedEntries stagingMixedExample) := by
  refine ⟨rfl, ?_, ?_, ?_⟩ <;>
    simp [stagingMixedExample, entryNames, resolveCopiedEntries, payloadEntries,
      FsTree.isDir, List.filter]

/-- C2, amended: when the number of top-level *directories* in the
staging area differs from one (zero, or two and more — top-level files
are not counted), the staging root itself is the payload root and
every top-level entry is copied to the destination. -/
theorem upload_direct_no_single_wrapper_copies_all
    (staging : List (String × FsTree))
    (h : (staging.filter (fun e => e.2.isDir)).length ≠ 1) :
    resolveCopiedEntries staging = staging := by
  unfold resolveCopiedEntries
  rcases hf : staging.filter (fun e => e.2.isDir) with _ | ⟨d, _ | ⟨d2, rest⟩⟩
  · rw [hf]
  · exact absurd (by rw [hf]; rfl) h
  · rw [hf]

theorem upload_direct_no_single_wrapper_copies_all_witness :
    ((stagingTwoDirsExample.filter (fun e => e.2.isDir)).length ≠ 1) ∧
    resolveCopiedEntries stagingTwoDirsExample = stagingTwoDirsExample :=
  ⟨by decide,
    upload_direct_no_single_wrapper_copies_all stagingTwoDirsExample (by decide)⟩

/-- C3: when the live tree existed (so the pre-restore copy was made),
extraction raises after `k` writes, and the best-effort recovery
succeeds, `process_restore_archive` leaves the live tree exactly as it
was before the operation, with status `failed` and the error
recorded. -/
theorem restore_rollback_restores_tree (t : FsTree)
    (writes : List (List String × Nat)) (k : Nat) (msg : String) :
    process_restore_archive (some t) writes (some (k, msg)) true =
      (some t, ⟨"failed", some msg⟩) :=
  rfl

/-! ## Claim theorems: C7 (generate_operation_id collision) -/

/-- C7: two distinct submission times falling into the same
millisecond (1700000000.0001 s and 1700000000.0004 s) produce the
*same* operation id, so ids are not unique per registry instance —
the second registration overwrites the first in `active_operations`. -/
theorem generate_operation_id_collision :
    ((17000000000001 : ℚ) / 10000 ≠ (17000000000004 : ℚ) / 10000) ∧
    generate_operation_id ((17000000000001 : ℚ) / 10000) =
      generate_operation_id ((17000000000004 : ℚ) / 10000) := by
  constructor
  · norm_num
  · unfold generate_operation_id
    have h1 : ⌊((17000000000001 : ℚ) / 10000) * 1000⌋ = 1700000000000 := by
      rw [Int.floor_eq_iff]
      norm_num
    have h2 : ⌊((17000000000004 : ℚ) / 10000) * 1000⌋ = 1700000000000 := by
      rw [Int.floor_eq_iff]
      norm_num
    rw [h1, h2]

/-! ## Claim theorems: C10 (upload overwrites silently) -/

/-- Lookups after an upsert: the written path holds the new content,
every other path is untouched. -/
theorem lookupStore_upsert (fs : List (String × Nat)) (p q : String) (c : Nat) :
    lookupStore (upsertStore fs p c) q =
      if q = p then some c else lookupStore fs q := by
  induction fs with
  | nil =>
    by_cases h : q = p
    · simp [upsertStore, lookupStore, h]
    · simp [upsertStore, lookupStore, h, Ne.symm h]
  | cons e rest ih =>
    obtain ⟨ep, ec⟩ := e
    by_cases h1 : ep = p
    · subst h1
      by_cases h2 : ep = q
      · subst h2
        simp [upsertStore, lookupStore]
      · simp [upsertStore, lookupStore, h2, Ne.symm h2]
    · by_cases h2 : ep = q
      · subst h2
        simp [upsertStore, lookupStore, h1, Ne.symm h1]
      · simp [upsertStore, lookupStore, h1, h2, ih]

/-- C10: on upload/update, when the checks pass and a file already
exists at the resolved `db/{category}/{type}/{secure name}` path, the
handler reports success (201 for upload, 200 for update) and saves the
new content over the old one — no collision suffix, no error; no other
path of the store changes. -/
theorem upload_overwrites_existing (operation : String) (fs : List (String × Nat))
    (sf : String → String) (fileFilename : String) (content old : Nat)
    (category item_type : String)
    (_hop : operation = "upload" ∨ operation = "update")
    (horig : sf fileFilename ≠ "")
    (hext : allowed_file (sf fileFilename) item_type = true)
    (hcat : category ≠ "") (htyp : item_type ≠ "")
    (_hexists : lookupStore fs
      ("db/" ++ category ++ "/" ++ item_type ++ "/" ++ sf (sf fileFilename)) = some old) :
    (∃ msg url code,
        (handle_upload_operation operation fs sf none fileFilename content category
          item_type true).1 = FileOpResponse.ok msg url code ∧
        (code = 200 ∨ code = 201)) ∧
    (handle_upload_operation operation fs sf none fileFilename content category
        item_type true).2 =
      upsertStore fs
        ("db/" ++ category ++ "/" ++ item_type ++ "/" ++ sf (sf fileFilename)) content ∧
    lookupStore (handle_upload_operation operation fs sf none fileFilename content
        category item_type true).2
      ("db/" ++ category ++ "/" ++ item_type ++ "/" ++ sf (sf fileFilename)) =
      some content ∧
    ∀ q, q ≠ "db/" ++ category ++ "/" ++ item_type ++ "/" ++ sf (sf fileFilename) →
      lookupStore (handle_upload_operation operation fs sf none fileFilename content
          category item_type true).2 q = lookupStore fs q := by
  have hco : (category = "" || item_type = "") = false := by
    simp [hcat, htyp]
  have hbody :
      handle_upload_operation operation fs sf none fileFilename content category
        item_type true =
      ((FileOpResponse.ok
          (if operation = "update" then "File updated successfully"
            else "File uploaded successfully")
          ("/files/" ++ category ++ "/" ++ item_type ++ "/" ++ sf fileFilename)
          (if operation = "update" then 200 else 201)),
        upsertStore fs
          ("db/" ++ category ++ "/" ++ item_type ++ "/" ++ sf (sf fileFilename))
          content) := by
    unfold handle_upload_operation
    simp [horig, hext, hco]
  refine ⟨?_, ?_, ?_, ?_⟩
  · refine ⟨_, _, _, by rw [hbody], ?_⟩
    by_cases hup : operation = "update" <;> simp [hup]
  · rw [hbody]
  · rw [hbody, lookupStore_upsert]
    simp
  · intro q hq
    rw [hbody, lookupStore_upsert, if_neg hq]

theorem upload_overwrites_existing_witness :
    (("upload" : String) = "upload" ∨ ("upload" : String) = "update") ∧
    ((fun s : String => s) "a.txt" ≠ "") ∧
    allowed_file ((fun s : String => s) "a.txt") "txt" = true ∧
    (("Default" : String) ≠ "") ∧ (("txt" : String) ≠ "") ∧
    lookupStore [("db/Default/txt/a.txt", 7)]
      ("db/" ++ "Default" ++ "/" ++ "txt" ++ "/" ++
        (fun s : String => s) ((fun s : String => s) "a.txt")) = some 7 ∧
    ((∃ msg url code,
        (handle_upload_operation "upload" [("db/Default/txt/a.txt", 7)]
          (fun s => s) none "a.txt" 9 "Default" "txt" true).1 =
          FileOpResponse.ok msg url code ∧ (code = 200 ∨ code = 201)) ∧
      (handle_upload_operation "upload" [("db/Default/txt/a.txt", 7)]
          (fun s => s) none "a.txt" 9 "Default" "txt" true).2 =
        upsertStore [("db/Default/txt/a.txt", 7)]
          ("db/" ++ "Default" ++ "/" ++ "txt" ++ "/" ++
            (fun s : String => s) ((fun s : String => s) "a.txt")) 9 ∧
      lookupStore (handle_upload_operation "upload" [("db/Default/txt/a.txt", 7)]
          (fun s => s) none "a.txt" 9 "Default" "txt" true).2
        ("db/" ++ "Default" ++ "/" ++ "txt" ++ "/" ++
          (fun s : String => s) ((fun s : String => s) "a.txt")) = some 9 ∧
      ∀ q, q ≠ "db/" ++ "Default" ++ "/" ++ "txt" ++ "/" ++
          (fun s : String => s) ((fun s : String => s) "a.txt") →
        lookupStore (handle_upload_operation "upload" [("db/Default/txt/a.txt", 7)]
            (fun s => s) none "a.txt" 9 "Default" "txt" true).2 q =
          lookupStore [("db/Default/txt/a.txt", 7)] q) :=
  ⟨Or.inl rfl, by decide, by decide, by decide, by decide, by decide,
    upload_overwrites_existing "upload" [("db/Default/txt/a.txt", 7)]
      (fun s => s) "a.txt" 9 7 "Default" "txt" (Or.inl rfl) (by decide)
      (by decide) (by decide) (by decide) (by decide)⟩

/-! ## Claim theorems: C8 (path traversal on the read-side endpoints)

Key fact: in the accumulator of posixpath.normpath's component loop, a
`..` component can only sit in a leading run, and only when the input
path is relative; so if any `..` survives normalisation, the
normalised string starts with `".."` and the `startswith` guard
fires. -/

/-- Invariant of the normpath fold: if `..` occurs in the accumulator,
it is the head, and the path had no initial slashes. -/
def EscHead (init : Bool) (acc : List (List Char)) : Prop :=
  ['.', '.'] ∈ acc → acc.head? = some ['.', '.'] ∧ init = false

theorem escHead_nil (init : Bool) : EscHead init [] := by
  intro h
  simp at h

theorem normStep_escHead (init : Bool) (acc : List (List Char)) (comp : List Char)
    (h : EscHead init acc) : EscHead init (normStep init acc comp) := by
  unfold normStep
  split_ifs with h1 h2 h3 h4
  · exact h
  · -- append a component that is not `..`
    intro hm
    rcases List.mem_append.mp hm with hm | hm
    · obtain ⟨hh, hi⟩ := h hm
      refine ⟨?_, hi⟩
      cases acc with
      | nil => simp at hh
      | cons a t => simpa using hh
    · simp only [List.mem_singleton] at hm
      subst hm
      simp at h2
  · -- append `..` (either at the very front, or after a leading `..`)
    rw [not_ne_iff] at h2
    subst h2
    simp only [Bool.or_eq_true, Bool.and_eq_true, Bool.not_eq_true',
      List.isEmpty_iff, List.isEmpty_eq_false, decide_eq_true_eq] at h3
    intro _
    rcases h3 with ⟨hinit, hacc⟩ | ⟨hne, hlast⟩
    · subst hacc
      exact ⟨rfl, by simpa using hinit⟩
    · have hmem : ['.', '.'] ∈ acc := by
        obtain ⟨hne2, heq⟩ := List.mem_getLast?_eq_getLast hlast
        rw [heq]
        exact List.getLast_mem hne2
      obtain ⟨hh, hi⟩ := h hmem
      refine ⟨?_, hi⟩
      cases acc with
      | nil => simp at hh
      | cons a t => simpa using hh
  · -- pop
    intro hm
    have hmem : ['.', '.'] ∈ acc := List.dropLast_subset acc hm
    obtain ⟨hh, hi⟩ := h hmem
    refine ⟨?_, hi⟩
    cases acc with
    | nil => simp at hh
    | cons a t =>
      cases t with
      | nil => simp at hm
      | cons b t2 => simpa using hh
  · exact h

theorem normFold_escHead (init : Bool) (parts : List (List Char))
    (acc : List (List Char)) (h : EscHead init acc) :
    EscHead init (parts.foldl (normStep init) acc) := by
  induction parts generalizing acc with
  | nil => exact h
  | cons p rest ih => exact ih _ (normStep_escHead init acc p h)

theorem listStartsWith_self_append (p z : List Char) :
    listStartsWith p (p ++ z) = true := by
  induction p with
  | nil => rfl
  | cons a t ih => simp [listStartsWith, ih]

/-- If the normalised path still holds a `..` component, the
normalised string starts with `".."`, so the handlers' guard fires. -/
theorem escape_startsWith_dotdot (p : String) (h : hasParentEscape p = true) :
    strStartsWith (pyNormpath p) ".." = true := by
  unfold hasParentEscape at h
  rw [decide_eq_true_eq] at h
  have hinv : EscHead (pyInitialSlashes p.data > 0) (pyNormpathComps p) :=
    normFold_escHead _ _ [] (escHead_nil _)
  obtain ⟨hh, hi⟩ := hinv h
  have hdata : p.data ≠ [] := by
    intro hnil
    unfold pyNormpathComps at h
    rw [hnil] at h
    simp [pySplitChar, normStep] at h
  have hini : pyInitialSlashes p.data = 0 := by
    rcases Nat.eq_zero_or_pos (pyInitialSlashes p.data) with h0 | h0
    · exact h0
    · rw [decide_eq_false_iff_not] at hi
      exact absurd h0 hi
  unfold pyNormpath
  rw [if_neg hdata]
  rcases hcomps : pyNormpathComps p with _ | ⟨g, gs⟩
  · rw [hcomps] at hh
    simp at hh
  · rw [hcomps] at hh
    simp only [List.head?_cons, Option.some.injEq] at hh
    subst hh
    rw [hini]
    simp only [List.replicate, List.nil_append]
    cases gs with
    | nil =>
      simp [joinSlash, strStartsWith, listStartsWith]
    | cons g2 gs2 =>
      show strStartsWith (String.mk (joinSlash (['.', '.'] :: g2 :: gs2))) ".." = true
      have hj : joinSlash (['.', '.'] :: g2 :: gs2) =
          ['.', '.'] ++ '/' :: joinSlash (g2 :: gs2) := rfl
      rw [hj]
      exact listStartsWith_self_append ['.', '.'] ('/' :: joinSlash (g2 :: gs2))

/-- C8, amended: a request whose path normalises to one containing a
parent-directory escape is rejected by all four read-side endpoints
without serving any file data or listing; the `abort(403)` is caught
by each handler's catch-all `except Exception` and surfaces as the
error payload of a 500 response (`errorCaught 403`), not as an actual
403 status. -/
theorem serve_traversal_rejected (fs : ServeFs) (p : String)
    (h : hasParentEscape p = true) :
    download_file fs p = ServeResp.errorCaught 403 ∧
    view_file fs p = ServeResp.errorCaught 403 ∧
    download_folder fs p = ServeResp.errorCaught 403 ∧
    browse_files fs p = ServeResp.errorCaught 403 ∧
    (download_file fs p).servesData = false ∧
    (view_file fs p).servesData = false ∧
    (download_folder fs p).servesData = false ∧
    (browse_files fs p).servesData = false := by
  have hs := escape_startsWith_dotdot p h
  refine ⟨?_, ?_, ?_, ?_, ?_, ?_, ?_, ?_⟩ <;>
    simp [download_file, view_file, download_folder, browse_files, hs,
      ServeResp.servesData]

theorem serve_traversal_rejected_witness :
    hasParentEscape "../x" = true ∧
    (download_file trivialServeFs "../x" = ServeResp.errorCaught 403 ∧
      view_file trivialServeFs "../x" = ServeResp.errorCaught 403 ∧
      download_folder trivialServeFs "../x" = ServeResp.errorCaught 403 ∧
      browse_files trivialServeFs "../x" = ServeResp.errorCaught 403 ∧
      (download_file trivialServeFs "../x").servesData = false ∧
      (view_file trivialServeFs "../x").servesData = false ∧
      (download_folder trivialServeFs "../x").servesData = false ∧
      (browse_files trivialServeFs "../x").servesData = false) :=
  ⟨by decide, serve_traversal_rejected trivialServeFs "../x" (by decide)⟩

/-- C8, counterexample: on the traversal request `"../x"` the download
endpoint does not respond 403 — the `abort(403)` is swallowed by the
catch-all and the handler returns a 500-status error payload (though
it still serves no data). -/
theorem serve_traversal_status_cex :
    download_file trivialServeFs "../x" = ServeResp.errorCaught 403 ∧
    (download_file trivialServeFs "../x").httpStatus = 500 ∧
    (download_file trivialServeFs "../x").httpStatus ≠ 403 := by
  refine ⟨by decide, by decide, by decide⟩

/-! ## Claim theorems: C4 (chunked restore) -/

theorem lookupChunk_saveChunk (cs : List (Nat × List Nat)) (num j : Nat)
    (d : List Nat) :
    lookupChunk (saveChunk cs num d) j =
      if j = num then some d else lookupChunk cs j := by
  induction cs with
  | nil =>
    by_cases h : j = num
    · simp [saveChunk, lookupChunk, h]
    · simp [saveChunk, lookupChunk, h, Ne.symm h]
  | cons e rest ih =>
    obtain ⟨en, ed⟩ := e
    by_cases h1 : en = num
    · subst h1
      by_cases h2 : en = j
      · subst h2
        simp [saveChunk, lookupChunk]
      · simp [saveChunk, lookupChunk, h2, Ne.symm h2]
    · by_cases h2 : en = j
      · subst h2
        simp [saveChunk, lookupChunk, h1, Ne.symm h1]
      · simp [saveChunk, lookupChunk, h1, h2, ih]

theorem lookupChunk_foldl_not_mem (us : List (Nat × List Nat))
    (cs : List (Nat × List Nat)) (i : Nat) (h : i ∉ us.map Prod.fst) :
    lookupChunk (us.foldl (fun acc u => saveChunk acc u.1 u.2) cs) i =
      lookupChunk cs i := by
  induction us generalizing cs with
  | nil => rfl
  | cons u rest ih =>
    simp only [List.map_cons, List.mem_cons, not_or] at h
    rw [List.foldl_cons, ih _ h.2, lookupChunk_saveChunk, if_neg h.1]

theorem lookupChunk_foldl_mem (us : List (Nat × List Nat))
    (cs : List (Nat × List Nat)) (i : Nat) (v : List Nat)
    (hmem : (i, v) ∈ us) (hnd : (us.map Prod.fst).Nodup) :
    lookupChunk (us.foldl (fun acc u => saveChunk acc u.1 u.2) cs) i = some v := by
  induction us generalizing cs with
  | nil => simp at hmem
  | cons u rest ih =>
    simp only [List.map_cons, List.nodup_cons] at hnd
    rcases List.mem_cons.mp hmem with heq | hmem2
    · subst heq
      rw [List.foldl_cons, lookupChunk_foldl_not_mem _ _ _ hnd.1,
        lookupChunk_saveChunk, if_pos rfl]
    · exact List.foldl_cons _ _ ▸ ih _ hmem2 hnd.2

/-- While fewer chunks than `total_chunks` have arrived, every upload
just saves its chunk and bumps the counter: no concatenation, no
status change, no pipeline start. -/
theorem chunkRun_receiving (p : List (Nat × List Nat)) (n : Nat) :
    ∀ (r : Nat) (ch : List (Nat × List Nat)) (cmb : Option (List Nat)),
    r + p.length < n →
    p.foldl chunkStep ⟨⟨"receiving_chunks", r, n, ch⟩, 0, cmb⟩ =
      ⟨⟨"receiving_chunks", r + p.length, n,
        p.foldl (fun acc u => saveChunk acc u.1 u.2) ch⟩, 0, cmb⟩ := by
  induction p with
  | nil =>
    intro r ch cmb _
    simp
  | cons u rest ih =>
    intro r ch cmb h
    simp only [List.length_cons] at h ⊢
    have hlt : ¬ r + 1 ≥ n := by omega
    have hstep : chunkStep ⟨⟨"receiving_chunks", r, n, ch⟩, 0, cmb⟩ u =
        ⟨⟨"receiving_chunks", r + 1, n, saveChunk ch u.1 u.2⟩, 0, cmb⟩ := by
      simp [chunkStep, uploadChunk, hlt]
    rw [List.foldl_cons, hstep, ih (r + 1) _ cmb (by omega), List.foldl_cons]
    have harith : r + 1 + rest.length = r + (rest.length + 1) := by omega
    rw [harith]

theorem foldl_append_eq_flatten (g : Nat → List Nat) (l : List Nat) (acc : List Nat) :
    l.foldl (fun a i => a ++ g i) acc = acc ++ (l.map g).flatten := by
  induction l generalizing acc with
  | nil => simp
  | cons x rest ih => simp [ih, List.append_assoc]

theorem range_map_getD (ds : List (List Nat)) :
    (List.range ds.length).map (fun i => ds.getD i []) = ds := by
  induction ds with
  | nil => rfl
  | cons d tl ih =>
    rw [List.length_cons, List.range_succ_eq_map, List.map_cons, List.map_map]
    simp only [Function.comp_def, List.getD_cons_zero, List.getD_cons_succ]
    rw [ih]

theorem mem_zip_range'_aux (ds : List (List Nat)) :
    ∀ (a i : Nat), i < ds.length →
      (a + i, ds.getD i []) ∈ (List.range' a ds.length).zip ds := by
  induction ds with
  | nil =>
    intro a i hi
    simp at hi
  | cons d tl ih =>
    intro a i hi
    cases i with
    | zero => simp [List.range', List.zip]
    | succ j =>
      have : a + (j + 1) = (a + 1) + j := by omega
      rw [this]
      simp only [List.length_cons, List.range', List.getD_cons_succ]
      exact List.mem_cons_of_mem _ (ih (a + 1) j (by simpa using hi))

theorem mem_zip_range (ds : List (List Nat)) (i : Nat) (hi : i < ds.length) :
    (i, ds.getD i []) ∈ (List.range ds.length).zip ds := by
  have h := mem_zip_range'_aux ds 0 i hi
  rw [List.range_eq_range']
  simpa using h

/-- C4: the claimed chunked-restore behaviour cannot run at all — the
chunk-completion block of restore_db is mis-indented (a sixteen-space
`if` directly after a twelve-space simple statement, no suite open at
that depth), so tokenizing the module fails with an IndentationError
and the module never loads.  The line profile of the region, checked
against Python's indentation rule starting from the enclosing suite
levels `[12, 8, 4, 0]`, is rejected.  The claim itself describes the
block's evident intent, which `chunked_restore_single_concat` below
proves correct for the block as intended. -/
theorem restore_db_chunk_suite_invalid :
    pyIndentCheck [12, 8, 4, 0] false restoreDbChunkRegion = true := by
  decide

/-- Supporting evidence for the verdict on the chunked restore: the
completion block *as evidently intended* (dedented into the
chunk-upload branch) does satisfy the described behaviour.  Declaring
`total_chunks = n ≥ 1` and then uploading chunks `0..n-1` exactly once
each (in any order, sequentially) triggers exactly one concatenation;
it runs on the final upload, concatenates the chunk files in
increasing chunk-number order — so the combined archive is
byte-identical to the original split `ds` — and the operation
transitions to `processing` with the restore pipeline invoked exactly
once. -/
theorem chunked_restore_single_concat (n : Nat) (hn : 1 ≤ n)
    (ds : List (List Nat)) (hlen : ds.length = n)
    (us : List (Nat × List Nat)) (hperm : us.Perm ((List.range n).zip ds)) :
    (runUploads (initChunked n) us).state.status = "processing" ∧
    (runUploads (initChunked n) us).state.chunksReceived = n ∧
    (runUploads (initChunked n) us).pipelineCount = 1 ∧
    (runUploads (initChunked n) us).lastCombined = some ds.flatten := by
  subst hlen
  have hlenus : us.length = ds.length := by
    have h := hperm.length_eq
    rwa [List.length_zip, List.length_range, Nat.min_self] at h
  have hkeys : (us.map Prod.fst).Perm (List.range ds.length) := by
    have h := hperm.map Prod.fst
    rwa [List.map_fst_zip _ _ (by rw [List.length_range])] at h
  have hnd : (us.map Prod.fst).Nodup :=
    hkeys.nodup_iff.mpr (List.nodup_range _)
  have hmemi : ∀ i, i < ds.length → (i, ds.getD i []) ∈ us :=
    fun i hi => hperm.mem_iff.mpr (mem_zip_range ds i hi)
  rcases List.eq_nil_or_concat us with hnil | ⟨p, z, hconcat⟩
  · rw [hnil] at hlenus
    simp at hlenus
    omega
  · subst hconcat
    have hp : p.length + 1 = ds.length := by
      simpa using hlenus
    have hall : ∀ i, i < ds.length →
        lookupChunk ((p.concat z).foldl (fun acc u => saveChunk acc u.1 u.2) []) i =
          some (ds.getD i []) :=
      fun i hi => lookupChunk_foldl_mem _ _ _ _ (hmemi i hi) hnd
    unfold runUploads initChunked
    rw [List.concat_eq_append, List.foldl_append,
      chunkRun_receiving p ds.length 0 [] none (by omega)]
    rw [List.concat_eq_append, List.foldl_append] at hall
    simp only [List.foldl_cons, List.foldl_nil] at hall ⊢
    have hge : 0 + p.length + 1 ≥ ds.length := by omega
    have hallb : ((List.range ds.length).all
        (fun i => (lookupChunk (saveChunk (p.foldl (fun acc u => saveChunk acc u.1 u.2) []) z.1 z.2) i).isSome)) = true := by
      rw [List.all_eq_true]
      intro i hi
      rw [List.mem_range] at hi
      rw [hall i hi]
      rfl
    have hcombined : ((List.range ds.length).foldl
        (fun acc i => acc ++ (lookupChunk (saveChunk (p.foldl (fun acc u => saveChunk acc u.1 u.2) []) z.1 z.2) i).getD []) []) = ds.flatten := by
      rw [foldl_append_eq_flatten]
      rw [List.nil_append]
      have hmapcong : (List.range ds.length).map
          (fun i => (lookupChunk (saveChunk (p.foldl (fun acc u => saveChunk acc u.1 u.2) []) z.1 z.2) i).getD []) =
          (List.range ds.length).map (fun i => ds.getD i []) := by
        apply List.map_congr_left
        intro i hi
        rw [List.mem_range] at hi
        rw [hall i hi]
        rfl
      rw [hmapcong, range_map_getD]
    have hif : ds.length ≤ p.length + 1 := by omega
    simp [chunkStep, uploadChunk, hge, hallb, hcombined, hif]
    omega

theorem chunked_restore_single_concat_witness :
    (1 ≤ 2) ∧ ([[10], [20, 30]] : List (List Nat)).length = 2 ∧
    ([(1, [20, 30]), (0, [10])] : List (Nat × List Nat)).Perm
      ((List.range 2).zip [[10], [20, 30]]) ∧
    ((runUploads (initChunked 2) [(1, [20, 30]), (0, [10])]).state.status = "processing" ∧
      (runUploads (initChunked 2) [(1, [20, 30]), (0, [10])]).state.chunksReceived = 2 ∧
      (runUploads (initChunked 2) [(1, [20, 30]), (0, [10])]).pipelineCount = 1 ∧
      (runUploads (initChunked 2) [(1, [20, 30]), (0, [10])]).lastCombined =
        some ([[10], [20, 30]] : List (List Nat)).flatten) :=
  ⟨by decide, by decide, by decide,
    chunked_restore_single_concat 2 (by decide) [[10], [20, 30]] (by decide)
      [(1, [20, 30]), (0, [10])] (by decide)⟩

end LocalDb
